import Mathlib

/-!
Verification of the channelx aggregator (src/aggregator.go) against its
specification. Each section shallowly embeds one part of the Go source:

* the per-worker batch/linger loop `work` (lines 122-178) as a step function
  over an explicit worker state, with the `time.Timer` modelled by a
  three-valued state (disarmed / armed-and-running / fired-with-pending-value)
  so that the `if !lingerTimer.Stop() { <-lingerTimer.C }` drain pattern and
  its blocking behaviour are represented faithfully;
* `TryEnqueue` (lines 63-84) over a bounded queue, with the queue contents at
  the two send attempts given separately (the `runtime.Gosched()` yield lets
  workers drain in between);
* `NewAggregator`'s option handling and queue construction (lines 38-60);
* `Stop`/`SafeStop` (lines 100-120) with the quit channel and the 50ms poll;
* `batchProcess` (lines 180-196) both as an action trace (logging and the
  asynchronous error-handler spawn) and as a sequence of wait-group
  operations interleaved with the spawned error-handler goroutine.
-/

namespace Channelx

/-! ## The linger timer

`work` builds `lingerTimer := time.NewTimer(0)` and immediately stops and
drains it (lines 137-140), so the loop starts with a disarmed timer whose
channel is empty.  A Go timer is in one of three states relevant here. -/

/-- State of the worker's `lingerTimer`: `idle` (stopped/drained, channel
empty), `running` (armed by `Reset`, not yet fired), `fired` (fired, the tick
is sitting in the timer's channel). -/
inductive TimerState
  | idle
  | running
  | fired
deriving DecidableEq, Repr

/-- Lines 159-161 (and 138-140): `if !lingerTimer.Stop() { <-lingerTimer.C }`.
`Stop` returns `true` only on a running timer; otherwise the code receives
from the timer channel, which succeeds only if a fired tick is pending and
otherwise blocks forever (`none`). -/
def timerDrain : TimerState → Option TimerState
  | .running => some .idle
  | .fired => some .idle
  | .idle => none

/-! ## The worker loop (`work`, lines 122-178) -/

/-- Per-worker state: the accumulated batch, the linger timer, and whether the
loop has been exited via the quit branch (`break loop`, line 175). -/
structure WorkerState (α : Type) where
  batch : List α
  timer : TimerState
  stopped : Bool
deriving DecidableEq, Repr

/-- Lines 136-140: the worker starts with an empty batch and a disarmed,
drained timer. -/
def initWorker (α : Type) : WorkerState α :=
  { batch := [], timer := .idle, stopped := false }

/-- The three event sources of the worker's `select` (lines 145-176): an item
arriving on `eventQueue`, the linger timer's channel delivering a tick, and
the closed `quit` channel being observed. -/
inductive Event (α : Type)
  | item (x : α)
  | lingerFired
  | quit

/-- Observable actions a worker performs while handling one event: reading an
item off the queue (`req := <-agt.eventQueue`), arming the linger timer
(`lingerTimer.Reset(agt.option.LingerTime)`), and handing a batch to
`batchProcess`. -/
inductive WAction (α : Type)
  | recv (x : α)
  | armTimer (d : Nat)
  | dispatch (b : List α)
deriving DecidableEq, Repr

/-- One iteration of the worker loop on one select event, returning the
actions performed and the next state — `none` when the iteration blocks
forever (the timer drain receiving on an empty channel of a disarmed timer).

* `item` (lines 146-162): append; if `len(batch) < BatchSize` arm the timer
  when the batch size just became 1 and go round; otherwise dispatch the
  batch, run the `Stop`/drain pattern, and reset to an empty batch.
* `lingerFired` (lines 163-169): receiving the tick leaves the timer idle;
  an empty batch is a no-op, otherwise dispatch and reset.
* `quit` (lines 170-175): dispatch a non-empty batch, then `break loop`. -/
def workStep (B linger : Nat) (s : WorkerState α) : Event α → List (WAction α) × Option (WorkerState α)
  | .item x =>
    if (s.batch ++ [x]).length < B then
      if (s.batch ++ [x]).length = 1 then
        ([.recv x, .armTimer linger], some { s with batch := s.batch ++ [x], timer := .running })
      else
        ([.recv x], some { s with batch := s.batch ++ [x] })
    else
      match timerDrain s.timer with
      | some t' =>
        ([.recv x, .dispatch (s.batch ++ [x])], some { batch := [], timer := t', stopped := false })
      | none => ([.recv x, .dispatch (s.batch ++ [x])], none)
  | .lingerFired =>
    if s.batch.isEmpty then
      ([], some { s with timer := .idle })
    else
      ([.dispatch s.batch], some { batch := [], timer := .idle, stopped := false })
  | .quit =>
    if s.batch.isEmpty then
      ([], some { s with stopped := true })
    else
      ([.dispatch s.batch], some { s with batch := [], stopped := true })

/-- Which select cases can fire in a given state: an item can always arrive,
the timer channel only delivers when the timer has been armed (it is
`running`, about to fire, or already `fired`), and the quit case is ready
once `Stop`/`SafeStop` closed the channel. -/
def eventEnabled (s : WorkerState α) : Event α → Bool
  | .item _ => true
  | .lingerFired => s.timer ≠ .idle
  | .quit => true

/-- Run the worker loop over a sequence of select events, collecting the
actions.  A stopped worker has left the loop and handles nothing further; a
blocked iteration (`none` next state) ends the run after its own actions;
events whose select case is not ready are skipped. -/
def runWorker (B linger : Nat) (s : WorkerState α) : List (Event α) → List (WAction α)
  | [] => []
  | e :: es =>
    if s.stopped then []
    else if eventEnabled s e then
      match workStep B linger s e with
      | (acts, some s') => acts ++ runWorker B linger s' es
      | (acts, none) => acts
    else runWorker B linger s es

/-- The batches handed to `batchProcess` among a worker's actions. -/
def dispatches (acts : List (WAction α)) : List (List α) :=
  acts.filterMap fun a =>
    match a with
    | .dispatch b => some b
    | _ => none

/-! ## Worker-loop lemmas -/

section StepEquations

variable {α : Type} {B linger : Nat} {s : WorkerState α} {x : α}

lemma workStep_item_first (h1 : (s.batch ++ [x]).length < B)
    (h2 : (s.batch ++ [x]).length = 1) :
    workStep B linger s (Event.item x)
      = ([WAction.recv x, WAction.armTimer linger],
          some { s with batch := s.batch ++ [x], timer := TimerState.running }) := by
  simp only [workStep]
  rw [if_pos h1, if_pos h2]

lemma workStep_item_grow (h1 : (s.batch ++ [x]).length < B)
    (h2 : (s.batch ++ [x]).length ≠ 1) :
    workStep B linger s (Event.item x)
      = ([WAction.recv x], some { s with batch := s.batch ++ [x] }) := by
  simp only [workStep]
  rw [if_pos h1, if_neg h2]

lemma workStep_item_full_drained {t' : TimerState} (h1 : ¬(s.batch ++ [x]).length < B)
    (ht : timerDrain s.timer = some t') :
    workStep B linger s (Event.item x)
      = ([WAction.recv x, WAction.dispatch (s.batch ++ [x])],
          some { batch := [], timer := t', stopped := false }) := by
  simp only [workStep]
  rw [if_neg h1, ht]

lemma workStep_item_full_blocked (h1 : ¬(s.batch ++ [x]).length < B)
    (ht : timerDrain s.timer = none) :
    workStep B linger s (Event.item x)
      = ([WAction.recv x, WAction.dispatch (s.batch ++ [x])], none) := by
  simp only [workStep]
  rw [if_neg h1, ht]

lemma workStep_linger_empty (hb : s.batch.isEmpty = true) :
    workStep B linger s Event.lingerFired
      = ([], some { s with timer := TimerState.idle }) := by
  simp only [workStep]
  rw [if_pos hb]

lemma workStep_linger_flush (hb : ¬s.batch.isEmpty = true) :
    workStep B linger s Event.lingerFired
      = ([WAction.dispatch s.batch],
          some { batch := [], timer := TimerState.idle, stopped := false }) := by
  simp only [workStep]
  rw [if_neg hb]

lemma workStep_quit_empty (hb : s.batch.isEmpty = true) :
    workStep B linger s Event.quit = ([], some { s with stopped := true }) := by
  simp only [workStep]
  rw [if_pos hb]

lemma workStep_quit_flush (hb : ¬s.batch.isEmpty = true) :
    workStep B linger s Event.quit
      = ([WAction.dispatch s.batch], some { s with batch := [], stopped := true }) := by
  simp only [workStep]
  rw [if_neg hb]

end StepEquations

/-- A worker that has taken the quit branch has left its loop: it handles no
further events at all. -/
lemma runWorker_stopped {α : Type} (B linger : Nat) (s : WorkerState α)
    (hs : s.stopped = true) (events : List (Event α)) :
    runWorker B linger s events = [] := by
  cases events <;> simp [runWorker, hs]

lemma dispatches_append (acts acts' : List (WAction α)) :
    dispatches (acts ++ acts') = dispatches acts ++ dispatches acts' := by
  simp [dispatches]

/-- One iteration preserves `len(batch) < BatchSize` and only dispatches
batches of size between 1 and `BatchSize`. -/
lemma workStep_batch_bounds {α : Type} {B : Nat} (linger : Nat) (hB : 1 ≤ B)
    {s : WorkerState α} (hs : s.batch.length < B) (e : Event α) :
    (∀ b ∈ dispatches (workStep B linger s e).1, 1 ≤ b.length ∧ b.length ≤ B)
    ∧ ∀ s', (workStep B linger s e).2 = some s' → s'.batch.length < B := by
  cases e with
  | item x =>
    by_cases h1 : (s.batch ++ [x]).length < B
    · by_cases h2 : (s.batch ++ [x]).length = 1
      · rw [workStep_item_first h1 h2]
        refine ⟨?_, ?_⟩
        · intro b hb
          simp [dispatches] at hb
        · intro s' hs'
          simp at hs'
          subst hs'
          simpa using h1
      · rw [workStep_item_grow h1 h2]
        refine ⟨?_, ?_⟩
        · intro b hb
          simp [dispatches] at hb
        · intro s' hs'
          simp at hs'
          subst hs'
          simpa using h1
    · cases ht : timerDrain s.timer with
      | some t' =>
        rw [workStep_item_full_drained h1 ht]
        refine ⟨?_, ?_⟩
        · intro b hb
          simp [dispatches] at hb
          subst hb
          simp only [List.length_append, List.length_singleton] at h1 ⊢
          omega
        · intro s' hs'
          simp at hs'
          subst hs'
          simpa using hB
      | none =>
        rw [workStep_item_full_blocked h1 ht]
        refine ⟨?_, ?_⟩
        · intro b hb
          simp [dispatches] at hb
          subst hb
          simp only [List.length_append, List.length_singleton] at h1 ⊢
          omega
        · intro s' hs'
          simp at hs'
  | lingerFired =>
    by_cases hb : s.batch.isEmpty
    · rw [workStep_linger_empty hb]
      refine ⟨?_, ?_⟩
      · intro b hbm
        simp [dispatches] at hbm
      · intro s' hs'
        simp at hs'
        subst hs'
        simpa using hs
    · have hne : s.batch ≠ [] := by simpa [List.isEmpty_iff] using hb
      rw [workStep_linger_flush hb]
      refine ⟨?_, ?_⟩
      · intro b hbm
        simp [dispatches] at hbm
        subst hbm
        exact ⟨Nat.one_le_iff_ne_zero.mpr (by simpa using hne), Nat.le_of_lt hs⟩
      · intro s' hs'
        simp at hs'
        subst hs'
        simpa using hB
  | quit =>
    by_cases hb : s.batch.isEmpty
    · rw [workStep_quit_empty hb]
      refine ⟨?_, ?_⟩
      · intro b hbm
        simp [dispatches] at hbm
      · intro s' hs'
        simp at hs'
        subst hs'
        simpa using hs
    · have hne : s.batch ≠ [] := by simpa [List.isEmpty_iff] using hb
      rw [workStep_quit_flush hb]
      refine ⟨?_, ?_⟩
      · intro b hbm
        simp [dispatches] at hbm
        subst hbm
        exact ⟨Nat.one_le_iff_ne_zero.mpr (by simpa using hne), Nat.le_of_lt hs⟩
      · intro s' hs'
        simp at hs'
        subst hs'
        simpa using hB

lemma runWorker_dispatch_bounds {α : Type} (B linger : Nat) (hB : 1 ≤ B)
    (events : List (Event α)) :
    ∀ s : WorkerState α, s.batch.length < B →
      ∀ b ∈ dispatches (runWorker B linger s events), 1 ≤ b.length ∧ b.length ≤ B := by
  induction events with
  | nil => intro s _ b hb; simp [runWorker, dispatches] at hb
  | cons e es ih =>
    intro s hs b hb
    by_cases hstop : s.stopped
    · simp [runWorker, hstop, dispatches] at hb
    · by_cases hen : eventEnabled s e
      · have hstep := workStep_batch_bounds linger hB hs e
        simp only [runWorker, hstop, if_false, hen, if_true, Bool.false_eq_true] at hb
        rcases hcase : workStep B linger s e with ⟨acts, s?⟩
        cases s? with
        | some s' =>
          rw [hcase] at hb
          rw [dispatches_append] at hb
          rcases List.mem_append.mp hb with h | h
          · exact hstep.1 b (by rw [hcase]; exact h)
          · exact ih s' (hstep.2 s' (by rw [hcase])) b h
        | none =>
          rw [hcase] at hb
          exact hstep.1 b (by rw [hcase]; exact hb)
      · simp only [runWorker, hstop, if_false, hen, Bool.false_eq_true] at hb
        exact ih s hs b hb

/-! ## Claim theorems on the worker loop -/

/-- C3: with `batchSize ≥ 1`, every batch a worker hands to `batchProcess` —
whether on the size-threshold path, the linger-expiry path, or the shutdown
flush — has between 1 and `batchSize` items; in particular no empty batch is
ever dispatched. -/
theorem dispatched_batch_size_bounds {α : Type} (B linger : Nat) (hB : 1 ≤ B)
    (events : List (Event α)) :
    ∀ b ∈ dispatches (runWorker B linger (initWorker α) events),
      1 ≤ b.length ∧ b.length ≤ B :=
  runWorker_dispatch_bounds B linger hB events (initWorker α) (by simpa [initWorker] using hB)

theorem dispatched_batch_size_bounds_witness :
    (1 ≤ 2)
    ∧ ∀ b ∈ dispatches (runWorker 2 7 (initWorker Nat)
        [Event.item 1, Event.item 2, Event.quit]), 1 ≤ b.length ∧ b.length ≤ 2 :=
  ⟨by decide, dispatched_batch_size_bounds 2 7 (by decide) _⟩

/-- C2 (failing input): with `BatchSize = 1` — a configuration the spec
permits — the first received item is appended, `len(batch) < BatchSize`
fails, the one-item batch is dispatched, and then the drain step runs
`if !lingerTimer.Stop() { <-lingerTimer.C }` on a timer that was never armed
(the `Reset` at line 152 is guarded by `batchSize < agt.option.BatchSize`):
`Stop` returns false and the receive blocks forever, so the worker never
returns to its select (`none` next state). -/
theorem work_batchSize_one_deadlocks :
    workStep 1 50 (initWorker Nat) (Event.item 0)
      = ([WAction.recv 0, WAction.dispatch [0]], none) := by
  decide

/-- C6: on observing the shutdown signal a worker dispatches its accumulated
batch exactly once if and only if it is non-empty, exits the loop
permanently, and handles no further events (in particular no further queue
reads). -/
theorem quit_flush_once_then_halt {α : Type} (B linger : Nat) (s : WorkerState α)
    (events : List (Event α)) (h : s.stopped = false) :
    (workStep B linger s Event.quit).1
        = (if s.batch.isEmpty then [] else [WAction.dispatch s.batch])
    ∧ ∃ s', (workStep B linger s Event.quit).2 = some s'
        ∧ s'.stopped = true ∧ runWorker B linger s' events = [] := by
  by_cases hb : s.batch.isEmpty
  · exact ⟨by simp [workStep, hb], { s with stopped := true }, by simp [workStep, hb],
      rfl, runWorker_stopped _ _ _ rfl _⟩
  · exact ⟨by simp [workStep, hb], { s with batch := [], stopped := true },
      by simp [workStep, hb], rfl, runWorker_stopped _ _ _ rfl _⟩

theorem quit_flush_once_then_halt_witness :
    (workStep 3 5 ⟨[1, 2], TimerState.running, false⟩ Event.quit).1
        = (if ([1, 2] : List Nat).isEmpty then [] else [WAction.dispatch [1, 2]])
    ∧ ∃ s', (workStep 3 5 ⟨[1, 2], TimerState.running, false⟩ Event.quit).2 = some s'
        ∧ s'.stopped = true ∧ runWorker 3 5 s' [Event.item 9] = [] :=
  quit_flush_once_then_halt 3 5 ⟨[1, 2], TimerState.running, false⟩ [Event.item 9] rfl

/-- C8 (counterexample): with `BatchSize = 1` the batch size becomes 1 on the
first received item, yet the linger timer is not armed — the `Reset` at line
152 sits under `batchSize < agt.option.BatchSize`, which fails — so "armed
exactly when the batch size becomes 1" does not hold as stated. -/
theorem linger_arm_missing_at_batchSize_one_cex :
    (workStep 1 50 (initWorker Nat) (Event.item 0)).1
        = [WAction.recv 0, WAction.dispatch [0]]
    ∧ WAction.armTimer 50 ∉ (workStep 1 50 (initWorker Nat) (Event.item 0)).1
    ∧ ((initWorker Nat).batch ++ [0]).length = 1 := by
  decide

/-- C8 (amended): on an item receive the linger timer is armed for
`LingerTime` exactly when the batch size becomes 1 while still below
`batchSize` (equivalently: the batch was empty and `batchSize ≥ 2`); items
that grow a non-empty batch never re-arm it, so a partial batch's linger
deadline dates from its first item.  The received item is appended: the next
state's batch is either the old batch with the item appended or empty, the
latter exactly when the appended batch was dispatched. -/
theorem linger_arm_iff_first_item_below_threshold {α : Type} (B linger : Nat)
    (s : WorkerState α) (x : α) :
    (WAction.armTimer linger ∈ (workStep B linger s (Event.item x)).1
        ↔ s.batch = [] ∧ 2 ≤ B)
    ∧ ∀ s', (workStep B linger s (Event.item x)).2 = some s' →
        s'.batch = s.batch ++ [x]
        ∨ (s'.batch = []
            ∧ WAction.dispatch (s.batch ++ [x]) ∈ (workStep B linger s (Event.item x)).1) := by
  by_cases h1 : (s.batch ++ [x]).length < B
  · by_cases h2 : (s.batch ++ [x]).length = 1
    · have hnil : s.batch = [] := by
        have := h2
        simp only [List.length_append, List.length_singleton] at this
        exact List.length_eq_zero.mp (by omega)
      have hB2 : 2 ≤ B := by
        have := h1
        rw [hnil] at this
        simp at this
        omega
      rw [workStep_item_first h1 h2]
      refine ⟨?_, ?_⟩
      · constructor
        · intro _
          exact ⟨hnil, hB2⟩
        · intro _
          simp
      · intro s' hs'
        simp at hs'
        subst hs'
        left
        rfl
    · rw [workStep_item_grow h1 h2]
      refine ⟨?_, ?_⟩
      · constructor
        · intro habs
          simp at habs
        · rintro ⟨hnil, -⟩
          exact absurd h2 (by simp [hnil])
      · intro s' hs'
        simp at hs'
        subst hs'
        left
        rfl
  · have hnoarm : ¬(s.batch = [] ∧ 2 ≤ B) := by
      rintro ⟨hnil, hB2⟩
      rw [hnil] at h1
      simp at h1
      omega
    cases ht : timerDrain s.timer with
    | some t' =>
      rw [workStep_item_full_drained h1 ht]
      refine ⟨?_, ?_⟩
      · constructor
        · intro habs
          simp at habs
        · intro h
          exact absurd h hnoarm
      · intro s' hs'
        simp at hs'
        subst hs'
        right
        refine ⟨rfl, ?_⟩
        simp
    | none =>
      rw [workStep_item_full_blocked h1 ht]
      refine ⟨?_, ?_⟩
      · constructor
        · intro habs
          simp at habs
        · intro h
          exact absurd h hnoarm
      · intro s' hs'
        simp at hs'

/-! ## The queue and `TryEnqueue` (lines 63-84)

`eventQueue` is a bounded channel.  A buffered channel send inside a
`select` with a `default` branch succeeds exactly when the buffer is not
full.  `TryEnqueue` makes two such attempts with a `runtime.Gosched()`
between them; the queue contents observed at the two attempts are passed
separately, since workers may drain the queue during the yield. -/

structure EventQueue (α : Type) where
  items : List α
  cap : Nat
deriving DecidableEq, Repr

def queueFull (q : EventQueue α) : Bool := q.cap ≤ q.items.length

def queuePush (q : EventQueue α) (x : α) : EventQueue α :=
  { q with items := q.items ++ [x] }

/-- The two `Logger.Warnc` calls of `TryEnqueue`. -/
inductive EnqueueLog
  | warnReschedule
  | warnSkipped
deriving DecidableEq, Repr

/-- What one `TryEnqueue` call returns and does: the boolean result, the
queue after the call, the warnings logged, and how many times the scheduler
was yielded (`runtime.Gosched()`). -/
structure TryEnqueueResult (α : Type) where
  ok : Bool
  queue : EventQueue α
  logs : List EnqueueLog
  yields : Nat
deriving DecidableEq, Repr

/-- Lines 63-84: try an immediate send; if the queue is full, warn (when a
logger is configured), yield once, and retry against the queue as it then
stands (`q2`); if still full, warn again and return false, dropping the
item. -/
def tryEnqueue (hasLogger : Bool) (x : α) (q1 q2 : EventQueue α) : TryEnqueueResult α :=
  if !queueFull q1 then
    { ok := true, queue := queuePush q1 x, logs := [], yields := 0 }
  else
    if !queueFull q2 then
      { ok := true, queue := queuePush q2 x,
        logs := if hasLogger then [.warnReschedule] else [], yields := 1 }
    else
      { ok := false, queue := q2,
        logs := (if hasLogger then [.warnReschedule] else [])
          ++ (if hasLogger then [.warnSkipped] else []),
        yields := 1 }

/-- C4: `TryEnqueue` is a total two-attempt function — it never blocks.  It
succeeds exactly when one of the two attempts finds room; it yields the
scheduler exactly once, namely when the first attempt fails; on success the
item is appended to the queue seen by the succeeding attempt; on failure the
queue is left as observed at the retry (the item is dropped) and a skip
warning is logged exactly when a logger is configured. -/
theorem tryEnqueue_spec {α : Type} (hasLogger : Bool) (x : α) (q1 q2 : EventQueue α) :
    ((tryEnqueue hasLogger x q1 q2).ok = (!queueFull q1 || !queueFull q2))
    ∧ ((tryEnqueue hasLogger x q1 q2).yields = if queueFull q1 then 1 else 0)
    ∧ ((tryEnqueue hasLogger x q1 q2).ok = true →
        (tryEnqueue hasLogger x q1 q2).queue
          = queuePush (if queueFull q1 then q2 else q1) x)
    ∧ ((tryEnqueue hasLogger x q1 q2).ok = false →
        (tryEnqueue hasLogger x q1 q2).queue = q2
        ∧ (EnqueueLog.warnSkipped ∈ (tryEnqueue hasLogger x q1 q2).logs
            ↔ hasLogger = true)) := by
  cases hf1 : queueFull q1 <;> cases hf2 : queueFull q2 <;>
    cases hasLogger <;> simp [tryEnqueue, hf1, hf2]

/-! ## `NewAggregator` (lines 38-60)

Options are applied functionally to the defaults; machine `int`s are modelled
by `Int` (no arithmetic is done on them, only the clamp comparison).  Line
49-51: `if option.ChannelBufferSize <= option.Workers` the buffer size is
replaced by `Workers`; the queue is then created with capacity
`option.ChannelBufferSize` (line 54). -/

structure AggregatorOption where
  batchSize : Int
  workers : Int
  channelBufferSize : Int
  lingerTime : Int
  hasErrorHandler : Bool
  hasLogger : Bool
deriving DecidableEq, Repr

/-- Lines 39-43: `BatchSize: 8`, `Workers: runtime.NumCPU()`,
`LingerTime: 1 * time.Minute` (in nanoseconds); the remaining fields are Go
zero values (0, nil, nil). -/
def defaultOption (numCPU : Int) : AggregatorOption :=
  { batchSize := 8, workers := numCPU, channelBufferSize := 0,
    lingerTime := 60000000000, hasErrorHandler := false, hasLogger := false }

/-- Lines 45-47: each option func rewrites the option record in order. -/
def applyOptionFuncs (numCPU : Int) (fs : List (AggregatorOption → AggregatorOption)) :
    AggregatorOption :=
  fs.foldl (fun o f => f o) (defaultOption numCPU)

/-- Lines 49-51: the clamp of `ChannelBufferSize` against `Workers`. -/
def clampBufferOption (o : AggregatorOption) : AggregatorOption :=
  if o.channelBufferSize ≤ o.workers then { o with channelBufferSize := o.workers } else o

/-- Line 54: the capacity `make(chan interface{}, option.ChannelBufferSize)`
is given after the clamp. -/
def newAggregatorQueueCap (numCPU : Int) (fs : List (AggregatorOption → AggregatorOption)) :
    Int :=
  (clampBufferOption (applyOptionFuncs numCPU fs)).channelBufferSize

/-- C9: for every configuration (any CPU count and any sequence of option
funcs), the queue is constructed with capacity
`max(configured ChannelBufferSize, configured Workers)`: a configured buffer
size not exceeding `Workers` (0 in particular) is clamped up to `Workers`,
and a larger one is kept. -/
theorem queue_capacity_is_max (numCPU : Int)
    (fs : List (AggregatorOption → AggregatorOption)) :
    newAggregatorQueueCap numCPU fs
      = max (applyOptionFuncs numCPU fs).channelBufferSize
          (applyOptionFuncs numCPU fs).workers := by
  unfold newAggregatorQueueCap clampBufferOption
  by_cases h : (applyOptionFuncs numCPU fs).channelBufferSize
      ≤ (applyOptionFuncs numCPU fs).workers
  · rw [if_pos h]
    exact (max_eq_right h).symm
  · rw [if_neg h]
    exact (max_eq_left (le_of_not_le h)).symm

/-! ## `Stop` and `SafeStop` (lines 100-120)

`Stop` closes `agt.quit` and waits on the wait group; closing an
already-closed Go channel panics.  `SafeStop` first checks
`len(agt.eventQueue)` immediately and otherwise polls it on a
`time.NewTicker(50 * time.Millisecond)`, closing `quit` at the first poll
that observes length 0; with `obs i` the queue length observed at the i-th
check (check 0 is the immediate one), the loop is a search for the first
zero, here run with explicit fuel — exhausted fuel models the call still
sitting in the polling loop. -/

/-- Lines 107-116: the first check index at which `len(eventQueue) == 0` is
observed, within `fuel` checks. -/
def safeStopLoop (obs : Nat → Nat) : Nat → Nat → Option Nat
  | 0, _ => none
  | fuel + 1, i => if obs i = 0 then some i else safeStopLoop obs fuel (i + 1)

/-- Line 110: `time.NewTicker(50 * time.Millisecond)`. -/
def safeStopPollIntervalMs : Nat := 50

/-- The externally visible shutdown steps: signalling the workers
(`close(agt.quit)`), blocking on the wait group (`agt.wg.Wait()`), and the
run-time panic of closing an already-closed channel. -/
inductive StopAction
  | closeQuit
  | wgWait
  | panicCloseClosed
deriving DecidableEq, Repr

/-- Lines 100-103: `Stop` closes `quit` unconditionally, then waits. -/
def stopRun (quitClosed : Bool) : List StopAction :=
  if quitClosed then [.panicCloseClosed] else [.closeQuit, .wgWait]

/-- Lines 106-120: `SafeStop` closes `quit` only once a check observes an
empty queue, then waits; if no check within `fuel` observes zero it is still
inside the polling loop and has performed no shutdown step. -/
def safeStopRun (quitClosed : Bool) (obs : Nat → Nat) (fuel : Nat) : List StopAction :=
  match safeStopLoop obs fuel 0 with
  | some _ => if quitClosed then [.panicCloseClosed] else [.closeQuit, .wgWait]
  | none => []

lemma safeStopLoop_spec (obs : Nat → Nat) :
    ∀ fuel k i, safeStopLoop obs fuel k = some i →
      k ≤ i ∧ obs i = 0 ∧ ∀ j, k ≤ j → j < i → obs j ≠ 0 := by
  intro fuel
  induction fuel with
  | zero =>
    intro k i h
    simp [safeStopLoop] at h
  | succ n ih =>
    intro k i h
    simp only [safeStopLoop] at h
    by_cases hk : obs k = 0
    · rw [if_pos hk] at h
      cases h
      exact ⟨le_refl k, hk, fun j hkj hjk => absurd (lt_of_le_of_lt hkj hjk) (lt_irrefl k)⟩
    · rw [if_neg hk] at h
      obtain ⟨h1, h2, h3⟩ := ih (k + 1) i h
      refine ⟨by omega, h2, ?_⟩
      intro j hkj hji
      rcases eq_or_lt_of_le hkj with rfl | hlt
      · exact hk
      · exact h3 j (by omega) hji

lemma safeStopLoop_none (obs : Nat → Nat) (h : ∀ i, obs i ≠ 0) :
    ∀ fuel k, safeStopLoop obs fuel k = none := by
  intro fuel
  induction fuel with
  | zero => intro k; rfl
  | succ n ih =>
    intro k
    simp only [safeStopLoop]
    rw [if_neg (h k)]
    exact ih (k + 1)

/-- C5: when `SafeStop` signals termination it does so at the first check —
the immediate one or a tick of the fixed 50ms poll — that observes queue
length 0: the observed length there is 0 and every earlier check saw a
non-empty queue; only then does it close `quit` and block on the wait group
for the workers to exit.  It never closes `quit` at a check that observes a
non-empty queue. -/
theorem safeStop_signals_only_on_empty (obs : Nat → Nat) (fuel i : Nat)
    (h : safeStopLoop obs fuel 0 = some i) :
    obs i = 0 ∧ (∀ j, j < i → obs j ≠ 0)
    ∧ safeStopRun false obs fuel = [StopAction.closeQuit, StopAction.wgWait]
    ∧ safeStopPollIntervalMs = 50 := by
  obtain ⟨-, h2, h3⟩ := safeStopLoop_spec obs fuel 0 i h
  exact ⟨h2, fun j hj => h3 j (Nat.zero_le j) hj, by simp [safeStopRun, h], rfl⟩

theorem safeStop_signals_only_on_empty_witness :
    (fun j => 2 - j) 2 = 0 ∧ (∀ j, j < 2 → (fun j => 2 - j) j ≠ 0)
    ∧ safeStopRun false (fun j => 2 - j) 5 = [StopAction.closeQuit, StopAction.wgWait]
    ∧ safeStopPollIntervalMs = 50 :=
  safeStop_signals_only_on_empty (fun j => 2 - j) 5 2 (by decide)

/-- C10 (counterexample): `SafeStop` called after shutdown has already been
signalled does not panic when the queue never drains: with every observation
equal to 1 (items abandoned in the queue by a fast stop, no worker left to
drain them), 100 checks perform no shutdown step at all — the call sits in
the polling loop instead of panicking. -/
theorem second_safeStop_never_panics_cex :
    safeStopRun true (fun _ => 1) 100 = [] ∧ (1 : Nat) ≠ 0 := by
  decide

/-- C10 (amended): a second `Stop` always panics (it closes the closed quit
channel); a second `SafeStop` panics if and when one of its checks observes
an empty queue, but with a queue that is never observed empty it polls
forever and neither panics nor returns. -/
theorem second_stop_panics_or_polls_forever :
    stopRun true = [StopAction.panicCloseClosed]
    ∧ (∀ obs fuel, (∀ i, obs i ≠ 0) → safeStopRun true obs fuel = [])
    ∧ (∀ obs fuel i, safeStopLoop obs fuel 0 = some i →
        safeStopRun true obs fuel = [StopAction.panicCloseClosed]) := by
  refine ⟨rfl, ?_, ?_⟩
  · intro obs fuel h
    simp [safeStopRun, safeStopLoop_none obs h fuel 0]
  · intro obs fuel i h
    simp [safeStopRun, h]

/-! ## The wait group around `batchProcess` (lines 180-196)

`batchProcess` brackets its body in `agt.wg.Add(1)` / `defer agt.wg.Done()`;
on a handler error with an error handler configured it launches
`go agt.option.ErrorHandler(...)` — a goroutine the wait group does not
track.  The interleavings of the `batchProcess` call and the spawned
goroutine are modelled as shuffles of the two threads' operation sequences
in which the goroutine starts only after its spawn. -/

/-- Atomic operations: the wait-group increment/decrement, the synchronous
handler call, the `go` statement spawning the error handler, and the spawned
goroutine starting and finishing. -/
inductive COp
  | wgAdd
  | wgDone
  | procCall
  | ehSpawn
  | ehStart
  | ehEnd
deriving DecidableEq, Repr

/-- Program order of one `batchProcess` call (lines 180-196): `wg.Add(1)`;
the handler call; when it fails and an error handler is configured, the
`go` spawn; then the deferred `wg.Done()`. -/
def bpOps (fails hasEH : Bool) : List COp :=
  [.wgAdd, .procCall] ++ (if fails && hasEH then [.ehSpawn] else []) ++ [.wgDone]

/-- Program order of the spawned error-handler goroutine. -/
def ehOps : List COp := [.ehStart, .ehEnd]

/-- `interleaved xs ys t`: `t` is a shuffle of the two threads' sequences
`xs` and `ys`. -/
def interleaved : List COp → List COp → List COp → Bool
  | xs, ys, [] => xs.isEmpty && ys.isEmpty
  | xs, ys, a :: t =>
    (match xs with
     | x :: xs' => x == a && interleaved xs' ys t
     | [] => false)
    || (match ys with
        | y :: ys' => y == a && interleaved xs ys' t
        | [] => false)

/-- The goroutine cannot start before the `go` statement that spawns it. -/
def causalOk : Bool → List COp → Bool
  | _, [] => true
  | _, COp.ehSpawn :: t => causalOk true t
  | spawned, COp.ehStart :: t => spawned && causalOk spawned t
  | spawned, _ :: t => causalOk spawned t

/-- A possible global execution of one failing dispatch: a shuffle of the
`batchProcess` thread with the spawned error-handler goroutine in which the
goroutine starts after its spawn. -/
def validTrace (fails hasEH : Bool) (t : List COp) : Bool :=
  interleaved (bpOps fails hasEH) (if fails && hasEH then ehOps else []) t
    && causalOk false t

/-- Contribution of one operation to the shared wait-group counter. -/
def wgDelta : COp → Int
  | .wgAdd => 1
  | .wgDone => -1
  | _ => 0

/-- The wait-group counter after a sequence of operations (`wg.Wait` in
`Stop`/`SafeStop` returns when it is 0). -/
def wgCount (t : List COp) : Int := (t.map wgDelta).sum

/-- C1 (counterexample): a valid execution of a failing dispatch with an
error handler configured reaches, after
`[wgAdd, procCall, ehSpawn, wgDone]`, a point where the wait-group counter
is already 0 — so `wg.Wait`, hence `Stop()`/`SafeStop()`, can return — while
the spawned error-handler goroutine has not finished (it has not even
started): the asynchronous error-handler invocation is not covered by any
increment of the completion counter. -/
theorem wg_untracked_error_handler_cex :
    validTrace true true
      [COp.wgAdd, COp.procCall, COp.ehSpawn, COp.wgDone, COp.ehStart, COp.ehEnd] = true
    ∧ List.isPrefixOf [COp.wgAdd, COp.procCall, COp.ehSpawn, COp.wgDone]
        [COp.wgAdd, COp.procCall, COp.ehSpawn, COp.wgDone, COp.ehStart, COp.ehEnd] = true
    ∧ wgCount [COp.wgAdd, COp.procCall, COp.ehSpawn, COp.wgDone] = 0
    ∧ COp.ehEnd ∉ [COp.wgAdd, COp.procCall, COp.ehSpawn, COp.wgDone] := by
  decide

/-- C1 (amended): the completion counter does bracket every synchronous
dispatch: a `batchProcess` call increments the counter first and decrements
it last, so at every point strictly inside the call — in particular during
the handler invocation — the counter contribution is exactly 1.  (The
asynchronous error-handler goroutine, by contrast, is spawned without any
accompanying increment; see the counterexample.) -/
theorem wg_covers_each_sync_dispatch (fails hasEH : Bool) :
    (bpOps fails hasEH).head? = some COp.wgAdd
    ∧ (bpOps fails hasEH).getLast? = some COp.wgDone
    ∧ COp.procCall ∈ bpOps fails hasEH
    ∧ ∀ k, 1 ≤ k → k < (bpOps fails hasEH).length →
        wgCount ((bpOps fails hasEH).take k) = 1 := by
  cases fails <;> cases hasEH <;>
    refine ⟨rfl, rfl, by decide, ?_⟩ <;> intro k h1 h2 <;>
    simp [bpOps] at h2 <;>
    interval_cases k <;> decide

/-! ## The `batchProcess` body (lines 180-196): logging and error handling -/

/-- Observable actions of one `batchProcess` call: the synchronous handler
invocation, the three `Logger` calls, and the `go` spawn of the configured
error handler with the error, the failed batch, and the handler-function
reference `agt.batchProcessor` it passes. -/
inductive BPAct (α ε : Type)
  | callProcessor (items : List α)
  | logError (err : ε)
  | spawnErrorHandler (err : ε) (items : List α) (handlerRef : List α → Option ε)
  | logSkipped (err : ε)
  | logInfo (count : Nat)

/-- Lines 180-196 with the batch handler `processor` (`nil` result modelled
as `none`, an error as `some err`): call the handler; on error, log it (when
a logger is configured), then either spawn the error handler asynchronously
or — with no error handler — log that the batch is skipped; on success log
the item count. -/
def batchProcessRun (processor : List α → Option ε) (hasLogger hasEH : Bool)
    (items : List α) : List (BPAct α ε) :=
  BPAct.callProcessor items ::
    match processor items with
    | some err =>
      (if hasLogger then [BPAct.logError err] else [])
        ++ (if hasEH then [BPAct.spawnErrorHandler err items processor]
            else if hasLogger then [BPAct.logSkipped err] else [])
    | none => if hasLogger then [BPAct.logInfo items.length] else []

def isSpawn : BPAct α ε → Bool
  | .spawnErrorHandler _ _ _ => true
  | _ => false

def isCall : BPAct α ε → Bool
  | .callProcessor _ => true
  | _ => false

/-- C7: when the batch handler fails on a dispatched batch, the handler was
called exactly once (the engine performs no re-dispatch of its own); with an
error handler configured, exactly one asynchronous error-handler spawn
happens, carrying that error, that exact batch and the batch-handler
reference; with none configured there is no spawn — the batch is dropped —
and, when a logger is present, the skip is logged. -/
theorem error_handler_invoked_once {α ε : Type} (processor : List α → Option ε)
    (hasLogger hasEH : Bool) (items : List α) (err : ε)
    (hfail : processor items = some err) :
    ((batchProcessRun processor hasLogger hasEH items).countP isCall = 1)
    ∧ (hasEH = true →
        (batchProcessRun processor hasLogger hasEH items).countP isSpawn = 1
        ∧ BPAct.spawnErrorHandler err items processor
            ∈ batchProcessRun processor hasLogger hasEH items)
    ∧ (hasEH = false →
        (batchProcessRun processor hasLogger hasEH items).countP isSpawn = 0
        ∧ (hasLogger = true →
            BPAct.logSkipped err ∈ batchProcessRun processor hasLogger hasEH items)) := by
  cases hasLogger <;> cases hasEH <;>
    simp [batchProcessRun, hfail, isSpawn, isCall, List.countP_cons, List.countP_append,
      List.countP_nil]

theorem error_handler_invoked_once_witness :
    BPAct.spawnErrorHandler 7 [1, 2, 3] (fun _ => some 7)
      ∈ batchProcessRun (fun _ => some 7) true true [1, 2, 3] :=
  ((error_handler_invoked_once (fun _ => some 7) true true [1, 2, 3] 7 rfl).2.1 rfl).2

end Channelx
